import Mathlib

/-!
Shallow embedding of the multi-agent job matching system (Python backend).

Sources embedded here:
  * backend/services/utils.py      : calculate_match_score, create_cv_summary,
                                     create_job_summary, get_job_field
  * backend/services/nlp_service.py: NLPService._simple_embeddings,
                                     NLPService.compute_similarity (degraded path)
  * backend/agents/matching_agent.py: MatchingAgent.match_cv_with_jobs,
                                     MatchingAgent._generate_explanation (tier level)
  * backend/agents/cv_analysis_agent.py: CVAnalysisAgent.analyze_cv and its
                                     sub-extractors (regexes are embedded through a
                                     small backtracking engine with Python re
                                     semantics: leftmost search, greedy/lazy
                                     repetition, ordered alternation, capture groups).

Numbers are modelled by rationals (Python floats idealised as exact arithmetic);
the one genuinely irrational quantity, the vector norm in compute_similarity,
is modelled over the reals with Real.sqrt.
-/

namespace MAS

/-! ## Python string primitives -/

/-- The whitespace characters of Python str.strip / str.split / regex \s
    (ASCII range; Unicode whitespace beyond ASCII is not exercised here). -/
def pySpace (c : Char) : Bool :=
  c = ' ' || c = '\t' || c = '\n' || c = '\r' || c = '\x0b' || c = '\x0c'

/-- Python str.strip(): drop pySpace characters from both ends. -/
def pyStrip (s : String) : String :=
  String.mk (((s.data.dropWhile pySpace).reverse.dropWhile pySpace).reverse)

/-- Python str.lower() (ASCII case folding). -/
def pyLower (s : String) : String := String.mk (s.data.map Char.toLower)

/-- Split a character list at every character satisfying p, keeping empty
    pieces (the semantics of Python str.split(sep) and re.split on a
    single-character class). -/
def splitPred (p : Char → Bool) : List Char → List (List Char)
  | [] => [[]]
  | c :: cs =>
    let r := splitPred p cs
    if p c then [] :: r
    else
      match r with
      | h :: t => (c :: h) :: t
      | [] => [[c]]

/-- Python str.split() with no argument: split on whitespace runs, no empty parts. -/
def pySplitWS (s : String) : List String :=
  ((splitPred pySpace s.data).map String.mk).filter (fun w => w ≠ "")

/-- Python sep.join(l). -/
def joinSep (sep : String) : List String → String
  | [] => ""
  | [x] => x
  | x :: y :: xs => x ++ sep ++ joinSep sep (y :: xs)

/-- Python ", ".join(l). -/
def joinComma (l : List String) : String := joinSep ", " l

/-- Python "\n".join(l). -/
def joinNL (l : List String) : String := joinSep "\n" l

/-- Substring test, Python (needle in hay) for strings. -/
def subIn (needle hay : List Char) : Bool :=
  (List.range (hay.length + 1)).any (fun i => (hay.drop i).take needle.length = needle)

/-- Substring test on strings. -/
def strIn (needle hay : String) : Bool := subIn needle.data hay.data

/-! ## Job dictionaries

A job offer is a Python dict with heterogeneous values.  The values that occur
in this code base are strings, booleans, numbers, None, and lists of
string/None/boolean entries. -/

/-- An atomic Python value occurring inside job-field lists. -/
inductive JAtom where
  | anull : JAtom
  | astr  (s : String) : JAtom
  | abool (b : Bool) : JAtom
deriving DecidableEq, Repr

/-- A Python value stored in a job dict. -/
inductive JVal where
  | vatom (a : JAtom) : JVal
  | vlist (l : List JAtom) : JVal
  | vnum  (q : ℚ) : JVal
deriving DecidableEq, Repr

/-- A job dict: association list keyed by strings (keys unique in practice). -/
abbrev Job : Type := List (String × JVal)

/-- Python str(v) for atoms. -/
def atomStr : JAtom → String
  | JAtom.anull => "None"
  | JAtom.astr s => s
  | JAtom.abool b => if b then "True" else "False"

/-- Python str(v) for dict values.  The list and number renderings are only for
    totality: no code path of the embedded functions reaches str() on a list
    (get_job_field and create_job_summary branch on lists first) and no claim
    evaluates str() on a number. -/
def pyStr : JVal → String
  | JVal.vatom a => atomStr a
  | JVal.vlist l => "[" ++ joinComma (l.map atomStr) ++ "]"
  | JVal.vnum q => toString q.num ++ (if q.den = 1 then ".0" else "/" ++ toString q.den)

/-- Python job_data.get(k): none when the key is absent. -/
def jobGet (j : Job) (k : String) : Option JVal :=
  (List.find? (fun kv => kv.1 = k) j).map (fun kv => kv.2)

/-- Python job_data.get(k) collapsed so that a stored None counts as absent
    (the embedded code only tests (value is not None)). -/
def jobGetVal (j : Job) (k : String) : Option JVal :=
  match jobGet j k with
  | some (JVal.vatom JAtom.anull) => none
  | v => v

/-- Python truthiness of a dict value. -/
def truthyV : JVal → Bool
  | JVal.vatom JAtom.anull => false
  | JVal.vatom (JAtom.astr s) => s ≠ ""
  | JVal.vatom (JAtom.abool b) => b
  | JVal.vlist l => l ≠ []
  | JVal.vnum q => q ≠ 0

/-- Python truthiness of job_data.get(k) (None when absent, falsy). -/
def truthyO : Option JVal → Bool
  | none => false
  | some v => truthyV v

/-- Python (a or b) where a is an optional dict value and b a default. -/
def pyOr (a : Option JVal) (b : JVal) : JVal :=
  match a with
  | some v => if truthyV v then v else b
  | none => b

/-- Python d[k] = v on a dict: overwrite in place, or append a new key. -/
def dictSet (j : Job) (k : String) (v : JVal) : Job :=
  if j.any (fun kv => kv.1 = k) then
    j.map (fun kv => if kv.1 = k then (k, v) else kv)
  else
    j ++ [(k, v)]

/-! ## CV data (the ResumeProfile produced by CVAnalysisAgent.analyze_cv) -/

/-- One work-experience entry. -/
structure ExpEntry where
  title : String
  company : String
deriving DecidableEq, Repr

/-- One education entry. -/
structure EduEntry where
  degree : String
  institution : String
deriving DecidableEq, Repr

/-- The parsed CV profile: exactly the eight keys of the dict built by
    CVAnalysisAgent.analyze_cv. -/
structure CVData where
  name : String
  email : String
  phone : String
  skills : List String
  experience : List ExpEntry
  education : List EduEntry
  languages : List String
  raw_text : String
deriving DecidableEq, Repr

/-! ## utils.calculate_match_score -/

/-- The set of lowercased CV skills: set(s.lower() for s in cv_data.get('skills', [])). -/
def cvSkillSet (cv : CVData) : Finset String :=
  (cv.skills.map pyLower).toFinset

/-- The requirement strings of a job: job_data.get('requirements', []).
    Entries are strings per the job schema (atomStr is the identity there). -/
def jobRequirements (j : Job) : List String :=
  match jobGetVal j "requirements" with
  | some (JVal.vlist l) => l.map atomStr
  | _ => []

/-- The set of job skill tokens: for each requirement, the words of length > 3,
    lowercased (utils.py lines 127-129). -/
def jobSkillSet (j : Job) : Finset String :=
  (jobRequirements j).foldl
    (fun acc req =>
      acc ∪ (((pySplitWS req).filter (fun w => 3 < w.length)).map pyLower).toFinset)
    ∅

/-- utils.calculate_match_score: 70% NLP similarity, 20% skill overlap,
    10 points experience default, capped at 100. -/
def calculate_match_score (cv : CVData) (j : Job) (similarity_score : ℚ) : ℚ :=
  let base_score := similarity_score * 70
  let cv_skills := cvSkillSet cv
  let job_skills := jobSkillSet j
  let skill_score : ℚ :=
    if cv_skills ≠ ∅ ∧ job_skills ≠ ∅ then
      ((cv_skills ∩ job_skills).card : ℚ) / (max job_skills.card 1) * 20
    else 0
  let experience_score : ℚ := 10
  let total_score := base_score + skill_score + experience_score
  min total_score 100

/-- The skill overlap ratio exactly as the claim states it:
    |lowercased resume skills ∩ job skill tokens| / max(|job skill tokens|, 1). -/
def claimSkillRatio (cv : CVData) (j : Job) : ℚ :=
  ((cvSkillSet cv ∩ jobSkillSet j).card : ℚ) / (max (jobSkillSet j).card 1)

/-! ## utils.get_job_field -/

/-- The candidate physical fields for a logical field name
    (utils.py field_mapping; legacy name before current-scheme name). -/
def fieldMapping (field_name : String) : List String :=
  if field_name = "title" then ["title"]
  else if field_name = "company" then ["company", "organization"]
  else if field_name = "location" then ["location", "locations_derived"]
  else if field_name = "type" then ["type", "employment_type"]
  else if field_name = "description" then ["description", "description_text"]
  else if field_name = "seniority" then ["seniority"]
  else if field_name = "remote" then ["remote_derived"]
  else if field_name = "application_email" then ["application_email"]
  else [field_name]

/-- The kept entries of a list value:
    [str(v) for v in value if v is not None and str(v).strip()]. -/
def listFiltered (l : List JAtom) : List String :=
  (l.filter (fun a => a ≠ JAtom.anull && pyStrip (atomStr a) ≠ "")).map atomStr

/-- The body of the loop in utils.get_job_field over the candidate fields. -/
def getJobFieldGo (j : Job) : List String → String
  | [] => ""
  | f :: rest =>
    match jobGetVal j f with
    | none => getJobFieldGo j rest
    | some v =>
      match v with
      | JVal.vlist l =>
        let filtered := listFiltered l
        if filtered ≠ [] then joinComma filtered else ""
      | JVal.vatom (JAtom.abool b) => if b then "Yes" else "No"
      | other =>
        let str_value := pyStrip (pyStr other)
        if str_value ≠ "" then str_value else getJobFieldGo j rest

/-- utils.get_job_field: format-agnostic field access over old/new job schemas. -/
def get_job_field (j : Job) (field_name : String) : String :=
  getJobFieldGo j (fieldMapping field_name)

/-- How a single non-null candidate value is normalised to a string, in the
    words of the claim: lists drop null/empty entries and join the rest with
    a comma, booleans render Yes/No, anything else is stringified and trimmed. -/
def normalizeVal : JVal → String
  | JVal.vlist l => joinComma (listFiltered l)
  | JVal.vatom (JAtom.abool b) => if b then "Yes" else "No"
  | other => pyStrip (pyStr other)

/-- The C3 claim as stated: the value of the first candidate field that is
    non-null and non-empty after normalisation, the empty string if none is. -/
def getJobFieldClaimed (j : Job) (field_name : String) : String :=
  ((fieldMapping field_name).findSome? (fun f =>
    match jobGetVal j f with
    | none => none
    | some v => if normalizeVal v = "" then none else some (normalizeVal v))).getD ""

/-- One candidate step of the amended C3 claim: a non-null list or boolean
    value always decides the result; a stringified value decides it only when
    non-empty after trimming. -/
def amendedStep (j : Job) (f : String) : Option String :=
  match jobGetVal j f with
  | none => none
  | some (JVal.vlist l) => some (joinComma (listFiltered l))
  | some (JVal.vatom (JAtom.abool b)) => some (if b then "Yes" else "No")
  | some v => if pyStrip (pyStr v) = "" then none else some (pyStrip (pyStr v))

/-- The amended C3 claim: the first non-null candidate whose value is a list or
    a boolean always decides the result (even when a list normalises to the
    empty string); only stringified values fall through when empty. -/
def getJobFieldAmended (j : Job) (field_name : String) : String :=
  ((fieldMapping field_name).findSome? (amendedStep j)).getD ""

/-! ## matching_agent._generate_explanation (tier level) -/

/-- The tier label computed at the top of MatchingAgent._generate_explanation. -/
def matchLevel (match_score : ℚ) : String :=
  if match_score ≥ 80 then "excellent"
  else if match_score ≥ 60 then "good"
  else if match_score ≥ 40 then "moderate"
  else "low"

/-! ## nlp_service: the degraded (bag-of-words) similarity path -/

/-- The whitespace tokens of a lowercased text: text.lower().split(). -/
def pyTokens (t : String) : List String := pySplitWS (pyLower t)

/-- The set of tokens of a text (the word-presence support of its embedding). -/
def tokenSet (t : String) : Finset String := (pyTokens t).toFinset

/-- The vocabulary of _simple_embeddings: sorted(list(set of all words)).
    Python set iteration order is irrelevant because the list is sorted. -/
def vocabOf (t1 t2 : String) : List String :=
  ((pyTokens t1 ++ pyTokens t2).dedup).mergeSort (fun a b => decide (a ≤ b))

/-- One row of _simple_embeddings: the 0/1 word-presence vector over vocab
    (vec[vocab_index[word]] = 1 for each word of the text). -/
def simpleEmbedding (vocab : List String) (t : String) : List ℚ :=
  vocab.map (fun w => if w ∈ pyTokens t then (1 : ℚ) else 0)

/-- numpy dot product of two vectors. -/
def dotL (v w : List ℚ) : ℚ := (List.zipWith (fun a b => a * b) v w).sum

/-- Squared Euclidean norm; numpy linalg.norm is its square root. -/
def normSq (v : List ℚ) : ℚ := dotL v v

open Classical in
/-- NLPService.compute_similarity on the degraded path: cosine similarity of
    the bag-of-words embeddings, 0 whenever either norm is 0 (so no division
    by zero and no NaN), clamped to [0, 1].  The square root of the norm makes
    this value irrational in general, hence the real-valued model. -/
noncomputable def compute_similarity (t1 t2 : String) : ℝ :=
  let vocab := vocabOf t1 t2
  let e1 := simpleEmbedding vocab t1
  let e2 := simpleEmbedding vocab t2
  let norm1 : ℝ := Real.sqrt ((normSq e1 : ℚ) : ℝ)
  let norm2 : ℝ := Real.sqrt ((normSq e2 : ℚ) : ℝ)
  if norm1 = 0 ∨ norm2 = 0 then 0
  else max 0 (min 1 (((dotL e1 e2 : ℚ) : ℝ) / (norm1 * norm2)))

/-! ## utils.create_cv_summary and utils.create_job_summary -/

/-- utils.create_cv_summary.  The experience/education entries are the typed
    records produced by analyze_cv, so the isinstance(…, dict) test of the
    source is always true here. -/
def create_cv_summary (cv : CVData) : String :=
  let parts : List String :=
    (if cv.name ≠ "" then ["Name: " ++ cv.name] else [])
    ++ (if cv.skills ≠ [] then ["Skills: " ++ joinComma cv.skills] else [])
    ++ (if cv.experience ≠ [] then
          "Experience:" ::
            cv.experience.map (fun e => "  - " ++ e.title ++ " at " ++ e.company)
        else [])
    ++ (if cv.education ≠ [] then
          "Education:" ::
            cv.education.map (fun e => "  - " ++ e.degree ++ " from " ++ e.institution)
        else [])
  joinNL parts

/-- Python str(value) where value defaults to the empty string when absent. -/
def strOf (o : Option JVal) : String := pyStr (o.getD (JVal.vatom (JAtom.astr "")))

/-- utils.create_job_summary: format-agnostic job text over old and new schemas. -/
def create_job_summary (j : Job) : String :=
  let title := jobGet j "title"
  let company := pyOr (jobGet j "company")
      ((jobGet j "organization").getD (JVal.vatom (JAtom.astr "")))
  let loc0 := jobGet j "location"
  let locVal : Option JVal :=
    if ¬ truthyO loc0 ∧ truthyO (jobGet j "locations_derived") then
      some (JVal.vatom (JAtom.astr
        (match (jobGet j "locations_derived").getD (JVal.vatom JAtom.anull) with
          | JVal.vlist l => joinComma (l.map atomStr)
          | v => pyStr v)))
    else loc0
  let jtype := pyOr (jobGet j "type")
      ((jobGet j "employment_type").getD (JVal.vatom (JAtom.astr "")))
  let desc := pyOr (jobGet j "description")
      ((jobGet j "description_text").getD (JVal.vatom (JAtom.astr "")))
  let parts : List String :=
    (if truthyO title then ["Position: " ++ strOf title] else [])
    ++ (if truthyV company then ["Company: " ++ pyStr company] else [])
    ++ (if truthyO locVal then ["Location: " ++ strOf locVal] else [])
    ++ (if truthyO (jobGet j "remote_derived") then
          ["Remote: " ++ strOf (jobGet j "remote_derived")] else [])
    ++ (if truthyV jtype then ["Type: " ++ pyStr jtype] else [])
    ++ (if truthyO (jobGet j "seniority") then
          ["Seniority: " ++ strOf (jobGet j "seniority")] else [])
    ++ (if truthyV desc then ["Description: " ++ pyStr desc] else [])
    ++ (match jobGet j "requirements" with
        | some (JVal.vlist l) =>
          if l ≠ [] then "Requirements:" :: l.map (fun a => "  - " ++ atomStr a) else []
        | _ => [])
  joinNL parts

/-! ## matching_agent.match_cv_with_jobs

The NLP similarity is injected as a parameter simf, mirroring the
nlp_service singleton dependency; the claims about the matcher hold for
every similarity function. -/

/-- Python round to even integer: round(x) for a tie-free or tied value. -/
def roundHalfEven (x : ℚ) : ℤ :=
  let n := ⌊x⌋
  let f := x - n
  if f < 1/2 then n
  else if 1/2 < f then n + 1
  else if Even n then n else n + 1

/-- Python round(x, 2): banker's rounding at the second decimal. -/
def pyRound2 (q : ℚ) : ℚ := (roundHalfEven (q * 100) : ℚ) / 100

/-- The CV summary used for comparison: create_cv_summary, falling back to the
    raw text when the summary is whitespace-only. -/
def cvSummaryOrRaw (cv : CVData) : String :=
  let cv_summary := create_cv_summary cv
  if pyStrip cv_summary = "" then cv.raw_text else cv_summary

/-- The loop body of match_cv_with_jobs: job_with_score = job.copy() with the
    two score keys written into the copy. -/
def annotateJob (simf : String → String → ℚ) (cv : CVData) (cvSummary : String)
    (job : Job) : Job :=
  let job_summary := create_job_summary job
  let similarity_score := simf cvSummary job_summary
  let match_score := calculate_match_score cv job similarity_score
  dictSet (dictSet job "match_score" (JVal.vnum (pyRound2 match_score)))
    "similarity_score" (JVal.vnum (pyRound2 (similarity_score * 100)))

/-- The sort key lambda x: x['match_score'] (the key is always present on the
    sorted records). -/
def matchScoreOf (j : Job) : ℚ :=
  match jobGet j "match_score" with
  | some (JVal.vnum q) => q
  | _ => 0

/-- Keep a before b when the match_score of a is at least that of b: the
    comparator of matches.sort(key=lambda x: x['match_score'], reverse=True). -/
def scoreLe (a b : Job) : Bool := decide (matchScoreOf b ≤ matchScoreOf a)

/-- MatchingAgent.match_cv_with_jobs: score every job, sort by match_score
    descending (stable, as list.sort(reverse=True)), return the first top_n. -/
def match_cv_with_jobs (simf : String → String → ℚ) (cv : CVData)
    (job_offers : List Job) (top_n : Nat) : List Job :=
  let cv_summary := cvSummaryOrRaw cv
  let scored := job_offers.map (annotateJob simf cv cv_summary)
  let sorted := scored.mergeSort scoreLe
  sorted.take top_n

/-! ## Heap model of match_cv_with_jobs (for the frame property)

Python dicts are mutable references.  The store is a list of dicts; the
caller's job dicts occupy positions 0..n-1 and job.copy() allocates at the
end of the store.  A dict write store[r][k] = v is an update at reference r. -/

/-- Write key k of the dict at reference r. -/
def heapSet (store : List Job) (r : Nat) (k : String) (v : JVal) : List Job :=
  store.set r (dictSet (store.getD r []) k v)

/-- The scoring loop over job references: reads the job at each reference,
    allocates a copy, and writes the two score keys into the copy only. -/
def matchLoopHeap (simf : String → String → ℚ) (cv : CVData) (cvSummary : String) :
    List Nat → List Job → (List Job × List Nat)
  | [], store => (store, [])
  | r :: rest, store =>
    let job := store.getD r []
    let job_summary := create_job_summary job
    let similarity_score := simf cvSummary job_summary
    let match_score := calculate_match_score cv job similarity_score
    let newRef := store.length
    let store1 := store ++ [job]
    let store2 := heapSet store1 newRef "match_score" (JVal.vnum (pyRound2 match_score))
    let store3 := heapSet store2 newRef "similarity_score"
        (JVal.vnum (pyRound2 (similarity_score * 100)))
    let res := matchLoopHeap simf cv cvSummary rest store3
    (res.1, newRef :: res.2)

/-- match_cv_with_jobs over the store: the result is the final store plus the
    references of the returned (sorted, truncated) scored copies.
    rank_jobs is this function with top_n = number of jobs. -/
def match_cv_with_jobs_heap (simf : String → String → ℚ) (cv : CVData)
    (jobs : List Job) (top_n : Nat) : List Job × List Nat :=
  let cv_summary := cvSummaryOrRaw cv
  let res := matchLoopHeap simf cv cv_summary (List.range jobs.length) jobs
  let sorted := res.2.mergeSort (fun a b =>
    decide (matchScoreOf ((res.1).getD b []) ≤ matchScoreOf ((res.1).getD a [])))
  (res.1, sorted.take top_n)

/-! ## A small backtracking regex engine with Python re semantics

Supports exactly the constructs used by cv_analysis_agent.py: character
classes, (case-insensitive) literals, greedy and lazy bounded/unbounded
repetition over a class, sequencing, ordered alternation, capture groups,
the $ anchor and the word boundary.  Matching explores alternatives in
Python order (greedy longest-first, lazy shortest-first, alternation left
to right); findall scans for leftmost non-overlapping matches. -/

/-- Regex AST. -/
inductive Pat where
  | cls (p : Char → Bool) : Pat
  | lit (s : List Char) : Pat
  | litCI (s : List Char) : Pat
  | repCls (p : Char → Bool) (lo : Nat) (hi : Option Nat) (lazyRep : Bool) : Pat
  | seqP (a b : Pat) : Pat
  | altP (a b : Pat) : Pat
  | grp (i : Nat) (a : Pat) : Pat
  | eos : Pat
  | wb : Pat

/-- Captured groups: (group index, start, end), most recent first. -/
abbrev Caps : Type := List (Nat × Nat × Nat)

/-- Python regex \w (ASCII part). -/
def isWordChar (c : Char) : Bool :=
  ('a' ≤ c && c ≤ 'z') || ('A' ≤ c && c ≤ 'Z') || ('0' ≤ c && c ≤ '9') || c = '_'

/-- Length of the maximal run of characters satisfying p from pos, capped. -/
def runLen (input : List Char) (p : Char → Bool) : Nat → Nat → Nat
  | _, 0 => 0
  | pos, cap + 1 =>
    match input[pos]? with
    | some c => if p c then runLen input p (pos + 1) cap + 1 else 0
    | none => 0

/-- ASCII lowercase of a character list (for IGNORECASE literals). -/
def lowerChars (s : List Char) : List Char := s.map Char.toLower

/-- The backtracking matcher: match pat at pos, then run the continuation;
    the first success in Python exploration order wins. -/
def matchP (input : List Char) :
    Pat → Nat → Caps → (Nat → Caps → Option (Nat × Caps)) → Option (Nat × Caps)
  | Pat.cls p, pos, caps, k =>
    match input[pos]? with
    | some c => if p c then k (pos + 1) caps else none
    | none => none
  | Pat.lit s, pos, caps, k =>
    if (input.drop pos).take s.length = s then k (pos + s.length) caps else none
  | Pat.litCI s, pos, caps, k =>
    if lowerChars ((input.drop pos).take s.length) = lowerChars s then
      k (pos + s.length) caps
    else none
  | Pat.repCls p lo hi lz, pos, caps, k =>
    let cap := match hi with | some h => h | none => input.length
    let run := runLen input p pos cap
    if run < lo then none
    else
      let counts := List.range' lo (run - lo + 1)
      let ordered := if lz then counts else counts.reverse
      ordered.findSome? (fun c => k (pos + c) caps)
  | Pat.seqP a b, pos, caps, k =>
    matchP input a pos caps (fun pos2 caps2 => matchP input b pos2 caps2 k)
  | Pat.altP a b, pos, caps, k =>
    match matchP input a pos caps k with
    | some r => some r
    | none => matchP input b pos caps k
  | Pat.grp i a, pos, caps, k =>
    matchP input a pos caps (fun pos2 caps2 => k pos2 ((i, pos, pos2) :: caps2))
  | Pat.eos, pos, caps, k =>
    if pos = input.length ∨ (pos + 1 = input.length ∧ input[pos]? = some '\n') then
      k pos caps
    else none
  | Pat.wb, pos, caps, k =>
    let prevW :=
      match pos with
      | 0 => false
      | q + 1 => match input[q]? with | some c => isWordChar c | none => false
    let nextW := match input[pos]? with | some c => isWordChar c | none => false
    if prevW ≠ nextW then k pos caps else none

/-- Try to match pat anchored at pos; returns end position and captures. -/
def matchAt (input : List Char) (pat : Pat) (pos : Nat) : Option (Nat × Caps) :=
  matchP input pat pos [] (fun p c => some (p, c))

/-- Leftmost match at or after pos: (start, end, captures). -/
def searchFrom (input : List Char) (pat : Pat) (pos : Nat) :
    Option (Nat × Nat × Caps) :=
  (List.range' pos (input.length + 1 - pos)).findSome?
    (fun st => (matchAt input pat st).map (fun r => (st, r.1, r.2)))

/-- Scan for successive non-overlapping matches (re.findall).  The fuel is the
    number of remaining scan positions. -/
def findAllAux (input : List Char) (pat : Pat) : Nat → Nat → List (Nat × Nat × Caps)
  | _, 0 => []
  | pos, fuel + 1 =>
    match searchFrom input pat pos with
    | none => []
    | some (st, en, caps) =>
      (st, en, caps) :: findAllAux input pat (if en = st then en + 1 else en) fuel

/-- re.findall over a character list. -/
def reFindAll (input : List Char) (pat : Pat) : List (Nat × Nat × Caps) :=
  findAllAux input pat 0 (input.length + 1)

/-- The substring of input between positions a and b. -/
def slice (input : List Char) (a b : Nat) : String :=
  String.mk ((input.drop a).take (b - a))

/-- The text of capture group i (Python keeps the last recorded capture). -/
def capGet (caps : Caps) (i : Nat) (input : List Char) : String :=
  match caps.find? (fun c => c.1 = i) with
  | some c => slice input c.2.1 c.2.2
  | none => ""

/-- Sequencing of a pattern list. -/
def pseq : List Pat → Pat
  | [] => Pat.lit []
  | [x] => x
  | x :: y :: ys => Pat.seqP x (pseq (y :: ys))

/-- Ordered alternation of a pattern list. -/
def palt : List Pat → Pat
  | [] => Pat.cls (fun _ => false)
  | [x] => x
  | x :: y :: ys => Pat.altP x (palt (y :: ys))

/-- First match of a single-group pattern: matches[0] of re.findall when the
    pattern has one capture group. -/
def firstGroupMatch (text : String) (pat : Pat) : Option String :=
  match reFindAll text.data pat with
  | [] => none
  | m :: _ => some (capGet m.2.2 0 text.data)

/-- re.findall for a two-group pattern: the list of group pairs. -/
def findAllPairs (text : String) (pat : Pat) : List (String × String) :=
  (reFindAll text.data pat).map
    (fun m => (capGet m.2.2 0 text.data, capGet m.2.2 1 text.data))

/-- re.findall for a group-free pattern: the list of whole-match strings. -/
def findAllWhole (text : String) (pat : Pat) : List String :=
  (reFindAll text.data pat).map (fun m => slice text.data m.1 m.2.1)

/-! ## The character classes of cv_analysis_agent's regexes -/

def isUpperAZ (c : Char) : Bool := 'A' ≤ c && c ≤ 'Z'

def isLowerAZ (c : Char) : Bool := 'a' ≤ c && c ≤ 'z'

def isAsciiLetter (c : Char) : Bool := isUpperAZ c || isLowerAZ c

def isDigitC (c : Char) : Bool := '0' ≤ c && c ≤ '9'

/-- The class [A-Za-z\s]. -/
def clsLetterSpace (c : Char) : Bool := isAsciiLetter c || pySpace c

/-- The class [A-Za-z\s&.,]. -/
def clsTitleCo (c : Char) : Bool :=
  isAsciiLetter c || pySpace c || c = '&' || c = '.' || c = ','

/-- The class [\s:]. -/
def clsSpaceColon (c : Char) : Bool := pySpace c || c = ':'

/-- The class [-.\s]. -/
def clsPhoneSep (c : Char) : Bool := c = '-' || c = '.' || pySpace c

/-- The class [A-Za-z0-9._%+-]. -/
def clsEmailLocal (c : Char) : Bool :=
  isAsciiLetter c || isDigitC c || c = '.' || c = '_' || c = '%' || c = '+' || c = '-'

/-- The class [A-Za-z0-9.-]. -/
def clsEmailDomain (c : Char) : Bool :=
  isAsciiLetter c || isDigitC c || c = '.' || c = '-'

/-- The class [A-Z|a-z] (as written, it also contains the bar). -/
def clsTld (c : Char) : Bool := isAsciiLetter c || c = '|'

def anyChar (_ : Char) : Bool := true

/-- The optional plural s of skills? under IGNORECASE. -/
def clsSorCapS (c : Char) : Bool := c = 's' || c = 'S'

/-! ## The regexes of cv_analysis_agent, as ASTs

Patterns compiled with re.IGNORECASE use case-insensitive literals and widen
[A-Z] to any ASCII letter; patterns compiled with re.DOTALL use a dot that
also matches the newline (anyChar). -/

/-- (?:experience|work history|employment)[\s:]+(.+?)(?:\n\n[A-Z]|education|skills|$)
    with IGNORECASE and DOTALL. -/
def expSectionPat : Pat :=
  pseq [palt [Pat.litCI "experience".data, Pat.litCI "work history".data,
              Pat.litCI "employment".data],
        Pat.repCls clsSpaceColon 1 none false,
        Pat.grp 0 (Pat.repCls anyChar 1 none true),
        palt [pseq [Pat.lit "\n\n".data, Pat.cls isAsciiLetter],
              Pat.litCI "education".data, Pat.litCI "skills".data, Pat.eos]]

/-- (?:education|academic|qualifications)[\s:]+(.+?)(?:\n\n[A-Z]|experience|skills|$)
    with IGNORECASE and DOTALL. -/
def eduSectionPat : Pat :=
  pseq [palt [Pat.litCI "education".data, Pat.litCI "academic".data,
              Pat.litCI "qualifications".data],
        Pat.repCls clsSpaceColon 1 none false,
        Pat.grp 0 (Pat.repCls anyChar 1 none true),
        palt [pseq [Pat.lit "\n\n".data, Pat.cls isAsciiLetter],
              Pat.litCI "experience".data, Pat.litCI "skills".data, Pat.eos]]

/-- (?:skills?|technical skills?|competencies)[\s:]+(.+?)(?:\n\n|\n[A-Z]|$)
    with IGNORECASE and DOTALL. -/
def skillsSectionPat : Pat :=
  pseq [palt [pseq [Pat.litCI "skill".data, Pat.repCls clsSorCapS 0 (some 1) false],
              pseq [Pat.litCI "technical skill".data,
                    Pat.repCls clsSorCapS 0 (some 1) false],
              Pat.litCI "competencies".data],
        Pat.repCls clsSpaceColon 1 none false,
        Pat.grp 0 (Pat.repCls anyChar 1 none true),
        palt [Pat.lit "\n\n".data,
              pseq [Pat.lit "\n".data, Pat.cls isAsciiLetter], Pat.eos]]

/-- ([A-Z][A-Za-z\s]+)\s+(?:at|@)\s+([A-Z][A-Za-z\s&.,]+)  (case sensitive). -/
def jobPatA : Pat :=
  pseq [Pat.grp 0 (pseq [Pat.cls isUpperAZ, Pat.repCls clsLetterSpace 1 none false]),
        Pat.repCls pySpace 1 none false,
        palt [Pat.lit "at".data, Pat.lit "@".data],
        Pat.repCls pySpace 1 none false,
        Pat.grp 1 (pseq [Pat.cls isUpperAZ, Pat.repCls clsTitleCo 1 none false])]

/-- ([A-Z][A-Za-z\s&.,]+)\s+-\s+([A-Z][A-Za-z\s]+)  (case sensitive). -/
def jobPatB : Pat :=
  pseq [Pat.grp 0 (pseq [Pat.cls isUpperAZ, Pat.repCls clsTitleCo 1 none false]),
        Pat.repCls pySpace 1 none false,
        Pat.lit "-".data,
        Pat.repCls pySpace 1 none false,
        Pat.grp 1 (pseq [Pat.cls isUpperAZ, Pat.repCls clsLetterSpace 1 none false])]

/-- \b[A-Za-z0-9._%+-]+@[A-Za-z0-9.-]+\.[A-Z|a-z]{2,}\b . -/
def emailPat : Pat :=
  pseq [Pat.wb, Pat.repCls clsEmailLocal 1 none false, Pat.lit "@".data,
        Pat.repCls clsEmailDomain 1 none false, Pat.lit ".".data,
        Pat.repCls clsTld 2 none false, Pat.wb]

/-- \+?\d{1,3}[-.\s]?\(?\d{1,4}\)?[-.\s]?\d{1,4}[-.\s]?\d{1,9} . -/
def phonePat1 : Pat :=
  pseq [Pat.repCls (fun c => c = '+') 0 (some 1) false,
        Pat.repCls isDigitC 1 (some 3) false,
        Pat.repCls clsPhoneSep 0 (some 1) false,
        Pat.repCls (fun c => c = '(') 0 (some 1) false,
        Pat.repCls isDigitC 1 (some 4) false,
        Pat.repCls (fun c => c = ')') 0 (some 1) false,
        Pat.repCls clsPhoneSep 0 (some 1) false,
        Pat.repCls isDigitC 1 (some 4) false,
        Pat.repCls clsPhoneSep 0 (some 1) false,
        Pat.repCls isDigitC 1 (some 9) false]

/-- \d{10} . -/
def phonePat2 : Pat := Pat.repCls isDigitC 10 (some 10) false

/-- \(\d{3}\)\s?\d{3}-\d{4} . -/
def phonePat3 : Pat :=
  pseq [Pat.lit "(".data, Pat.repCls isDigitC 3 (some 3) false, Pat.lit ")".data,
        Pat.repCls pySpace 0 (some 1) false, Pat.repCls isDigitC 3 (some 3) false,
        Pat.lit "-".data, Pat.repCls isDigitC 4 (some 4) false]

/-! ## cv_analysis_agent: the extractors and analyze_cv -/

/-- The anchored name pattern re.match(r'^[A-Z][a-zA-Z\s]+$', line): an
    uppercase ASCII letter followed by one or more letters/whitespace,
    spanning the whole line. -/
def pyMatchNamePattern (line : String) : Bool :=
  match line.data with
  | [] => false
  | c :: rest => isUpperAZ c && rest ≠ [] && rest.all clsLetterSpace

/-- The per-line acceptance test of _extract_name, on the stripped line:
    non-empty, under 50 characters, no "@", and matching the name pattern. -/
def nameCond (l : String) : Bool :=
  let line := pyStrip l
  (line != "") && decide (line.length < 50) && !(line.data.contains '@')
    && pyMatchNamePattern line

/-- The scanning loop of _extract_name over (at most five) lines. -/
def nameLoop : List String → String
  | [] => ""
  | l :: rest => if nameCond l then pyStrip l else nameLoop rest

/-- CVAnalysisAgent._extract_name: scan the first 5 lines of the stripped text. -/
def extract_name (text : String) : String :=
  let lines := (splitPred (fun c => c = '\n') (pyStrip text).data).map String.mk
  nameLoop (lines.take 5)

/-- The C7 claim as stated: scan the first 5 NON-EMPTY lines of the text and
    return the first that is under 50 characters, has no "@" and matches the
    name pattern. -/
def extractNameClaimed (text : String) : String :=
  let lines := ((splitPred (fun c => c = '\n') text.data).map String.mk).filter
    (fun l => l ≠ "")
  ((lines.take 5).find? (fun line =>
      decide (line.length < 50) && !(line.data.contains '@')
        && pyMatchNamePattern line)).getD ""

/-- The amended C7 claim: scan the first 5 lines (empty ones included) of the
    whitespace-trimmed text; return the first whose stripped form is non-empty,
    under 50 characters, free of "@" and matching the name pattern. -/
def extractNameAmended (text : String) : String :=
  let lines := (splitPred (fun c => c = '\n') (pyStrip text).data).map String.mk
  (((lines.take 5).find? nameCond).map pyStrip).getD ""

/-- CVAnalysisAgent._extract_email: first match of the email regex. -/
def extract_email (text : String) : String :=
  match findAllWhole text emailPat with
  | [] => ""
  | m :: _ => m

/-- CVAnalysisAgent._extract_phone: first match of the first phone regex that
    matches anywhere. -/
def extract_phone (text : String) : String :=
  match findAllWhole text phonePat1 with
  | m :: _ => m
  | [] =>
    match findAllWhole text phonePat2 with
    | m :: _ => m
    | [] =>
      match findAllWhole text phonePat3 with
      | m :: _ => m
      | [] => ""

/-- The hard-coded skill keywords of _extract_skills. -/
def skillKeywords : List String :=
  ["Python", "Java", "JavaScript", "TypeScript", "React", "Angular", "Vue",
   "Node.js", "Django", "FastAPI", "Flask", "SQL", "MongoDB", "PostgreSQL",
   "Docker", "Kubernetes", "AWS", "Azure", "GCP", "Git", "CI/CD",
   "Machine Learning", "Deep Learning", "NLP", "TensorFlow", "PyTorch",
   "Data Analysis", "REST API", "GraphQL", "Microservices", "Agile",
   "HTML", "CSS", "Tailwind", "Bootstrap", "Redis", "RabbitMQ",
   "Linux", "Bash", "DevOps", "Security", "Testing", "Selenium"]

/-- The separator class of re.split(r'[,\nâ€¢\-]', …): the source file holds the
    mojibake bytes of a bullet, so the class is the six characters shown. -/
def splitItemsClass (c : Char) : Bool :=
  c = ',' || c = '\n' || c = 'â' || c = '€' || c = '¢' || c = '-'

/-- First-occurrence deduplication.  Python list(set(…)) has an unspecified
    (hash-based) order; this model fixes first-occurrence order. -/
def dedupAux : List String → List String → List String
  | [], _ => []
  | x :: xs, seen =>
    if seen.contains x then dedupAux xs seen else x :: dedupAux xs (x :: seen)

def dedupFirst (l : List String) : List String := dedupAux l []

/-- CVAnalysisAgent._extract_skills: keyword hits plus the items of the skills
    section, deduplicated and capped at 20. -/
def extract_skills (text : String) : List String :=
  let fromKeywords := skillKeywords.filter (fun sk => strIn (pyLower sk) (pyLower text))
  let sectionSkills :=
    match firstGroupMatch text skillsSectionPat with
    | none => []
    | some section_text =>
      (((splitPred splitItemsClass section_text.data).map
          (fun cs => pyStrip (String.mk cs))).filter
        (fun item => item ≠ "" && item.length < 50))
  (dedupFirst (fromKeywords ++ sectionSkills)).take 20

/-- CVAnalysisAgent._extract_experience: the experience section, then both
    job-line shapes, each capped at 5 matches. -/
def extract_experience (text : String) : List ExpEntry :=
  match firstGroupMatch text expSectionPat with
  | none => []
  | some section_text =>
    let m1 := (findAllPairs section_text jobPatA).take 5
    let m2 := (findAllPairs section_text jobPatB).take 5
    (m1 ++ m2).map (fun m => { title := pyStrip m.1, company := pyStrip m.2 })

/-- The degree keywords of _extract_education. -/
def degreeKeywords : List String :=
  ["Bachelor", "Master", "PhD", "BSc", "MSc", "MBA", "Degree"]

/-- CVAnalysisAgent._extract_education: for each keyword found in the education
    section, every line containing it becomes a degree entry. -/
def extract_education (text : String) : List EduEntry :=
  match firstGroupMatch text eduSectionPat with
  | none => []
  | some section_text =>
    (degreeKeywords.map (fun kw =>
      if strIn (pyLower kw) (pyLower section_text) then
        (((splitPred (fun c => c = '\n') section_text.data).map String.mk).filter
            (fun line => strIn (pyLower kw) (pyLower line))).map
          (fun line => ({ degree := pyStrip line, institution := "" } : EduEntry))
      else [])).flatten

/-- The language list of _extract_languages. -/
def commonLanguages : List String :=
  ["English", "French", "Spanish", "German", "Italian", "Portuguese",
   "Chinese", "Japanese", "Korean", "Arabic", "Russian", "Hindi"]

/-- CVAnalysisAgent._extract_languages. -/
def extract_languages (text : String) : List String :=
  dedupFirst (commonLanguages.filter (fun lang => strIn (pyLower lang) (pyLower text)))

/-- CVAnalysisAgent.analyze_cv: the profile dict with its eight keys. -/
def analyze_cv (cv_content : String) : CVData :=
  { name := extract_name cv_content
    email := extract_email cv_content
    phone := extract_phone cv_content
    skills := extract_skills cv_content
    experience := extract_experience cv_content
    education := extract_education cv_content
    languages := extract_languages cv_content
    raw_text := cv_content }

/-! # Theorems -/

/-- Helper: summing a 0/1 indicator over a list counts the satisfying elements. -/
theorem sum_ind (p : String → Prop) [DecidablePred p] :
    ∀ l : List String,
      (l.map (fun w => if p w then (1 : ℚ) else 0)).sum
        = ((l.countP (fun w => decide (p w))) : ℚ)
  | [] => by simp
  | a :: l => by
      simp [List.countP_cons, sum_ind p l]
      split_ifs <;> push_cast <;> ring

/-- Helper: the dot product of two word-presence embeddings over a duplicate-free
    vocabulary covering the first text counts the shared tokens. -/
theorem dotL_embed (v : List String) (hnd : v.Nodup) (t1 t2 : String)
    (h1 : ∀ w, w ∈ pyTokens t1 → w ∈ v) :
    dotL (simpleEmbedding v t1) (simpleEmbedding v t2)
      = ((tokenSet t1 ∩ tokenSet t2).card : ℚ) := by
  unfold dotL simpleEmbedding
  rw [List.zipWith_map, List.zipWith_same]
  have hfun : (fun w => (if w ∈ pyTokens t1 then (1 : ℚ) else 0)
        * (if w ∈ pyTokens t2 then (1 : ℚ) else 0))
      = fun w => if w ∈ pyTokens t1 ∧ w ∈ pyTokens t2 then (1 : ℚ) else 0 := by
    funext w
    split_ifs <;> simp_all
  rw [hfun, sum_ind]
  congr 1
  rw [List.countP_eq_length_filter]
  have hfn : (v.filter (fun w => decide (w ∈ pyTokens t1 ∧ w ∈ pyTokens t2))).Nodup :=
    hnd.filter _
  rw [← List.toFinset_card_of_nodup hfn]
  congr 1
  ext w
  simp only [List.mem_toFinset, List.mem_filter, Finset.mem_inter, tokenSet,
    decide_eq_true_eq]
  constructor
  · rintro ⟨-, hw1, hw2⟩
    exact ⟨hw1, hw2⟩
  · rintro ⟨hw1, hw2⟩
    exact ⟨h1 w hw1, hw1, hw2⟩

/-- Helper: compute_similarity in closed form over token sets. -/
theorem compute_similarity_closed (t1 t2 : String) :
    compute_similarity t1 t2 =
      if (tokenSet t1).card = 0 ∨ (tokenSet t2).card = 0 then 0
      else
        max 0 (min 1 (((tokenSet t1 ∩ tokenSet t2).card : ℝ) /
          (Real.sqrt ((tokenSet t1).card) * Real.sqrt ((tokenSet t2).card)))) := by
  have hnd : (vocabOf t1 t2).Nodup :=
    List.Perm.nodup
      (List.mergeSort_perm ((pyTokens t1 ++ pyTokens t2).dedup) _).symm
      (List.nodup_dedup _)
  have hmem1 : ∀ w, w ∈ pyTokens t1 → w ∈ vocabOf t1 t2 := by
    intro w hw
    unfold vocabOf
    rw [List.mem_mergeSort, List.mem_dedup]
    exact List.mem_append_left _ hw
  have hmem2 : ∀ w, w ∈ pyTokens t2 → w ∈ vocabOf t1 t2 := by
    intro w hw
    unfold vocabOf
    rw [List.mem_mergeSort, List.mem_dedup]
    exact List.mem_append_right _ hw
  have hdot := dotL_embed (vocabOf t1 t2) hnd t1 t2 hmem1
  have hn1 : normSq (simpleEmbedding (vocabOf t1 t2) t1) = ((tokenSet t1).card : ℚ) := by
    unfold normSq
    rw [dotL_embed (vocabOf t1 t2) hnd t1 t1 hmem1, Finset.inter_self]
  have hn2 : normSq (simpleEmbedding (vocabOf t1 t2) t2) = ((tokenSet t2).card : ℚ) := by
    unfold normSq
    rw [dotL_embed (vocabOf t1 t2) hnd t2 t2 hmem2, Finset.inter_self]
  simp only [compute_similarity, hdot, hn1, hn2]
  push_cast
  have hsq : ∀ n : ℕ, (Real.sqrt n = 0 ↔ n = 0) := by
    intro n
    rw [Real.sqrt_eq_zero (by positivity)]
    exact_mod_cast Nat.cast_eq_zero
  by_cases hc : (tokenSet t1).card = 0 ∨ (tokenSet t2).card = 0
  · rw [if_pos, if_pos hc]
    rcases hc with hc | hc
    · exact Or.inl ((hsq _).mpr hc)
    · exact Or.inr ((hsq _).mpr hc)
  · rw [if_neg, if_neg hc]
    push_neg at hc
    intro habs
    rcases habs with habs | habs
    · exact hc.1 ((hsq _).mp habs)
    · exact hc.2 ((hsq _).mp habs)

/-- Claim C4: on the degraded path compute_similarity always lies in [0, 1],
    and it is exactly 0 when either text is empty or the texts share no
    whitespace token (in particular the zero-norm branch returns 0, so there
    is no division by zero). -/
theorem compute_similarity_safety (t1 t2 : String) :
    (0 ≤ compute_similarity t1 t2 ∧ compute_similarity t1 t2 ≤ 1)
    ∧ ((t1 = "" ∨ t2 = "" ∨ tokenSet t1 ∩ tokenSet t2 = ∅) →
        compute_similarity t1 t2 = 0) := by
  rw [compute_similarity_closed]
  by_cases hc : (tokenSet t1).card = 0 ∨ (tokenSet t2).card = 0
  · rw [if_pos hc]
    exact ⟨⟨le_refl 0, zero_le_one⟩, fun _ => rfl⟩
  · rw [if_neg hc]
    push_neg at hc
    refine ⟨⟨le_max_left _ _, max_le (by norm_num) (min_le_left _ _)⟩, ?_⟩
    intro h
    rcases h with h | h | h
    · subst h
      exact absurd (by decide : (tokenSet "").card = 0) hc.1
    · subst h
      exact absurd (by decide : (tokenSet "").card = 0) hc.2
    · rw [h]
      norm_num

/-- Witness for C4 at the empty first text. -/
theorem compute_similarity_safety_witness :
    (0 ≤ compute_similarity "" "x" ∧ compute_similarity "" "x" ≤ 1)
    ∧ compute_similarity "" "x" = 0 :=
  ⟨(compute_similarity_safety "" "x").1,
   (compute_similarity_safety "" "x").2 (Or.inl rfl)⟩

/-- Claim C5: the degraded-path similarity is symmetric in its two texts. -/
theorem compute_similarity_symm (t1 t2 : String) :
    compute_similarity t1 t2 = compute_similarity t2 t1 := by
  rw [compute_similarity_closed, compute_similarity_closed]
  refine if_congr or_comm rfl ?_
  rw [Finset.inter_comm, mul_comm]

/-- Helper: the skill-score branch of calculate_match_score is 20 times the
    overlap ratio of the claim, in every case (empty skill sets included). -/
theorem skillScore_eq_ratio (cv : CVData) (j : Job) :
    (if cvSkillSet cv ≠ ∅ ∧ jobSkillSet j ≠ ∅ then
      ((cvSkillSet cv ∩ jobSkillSet j).card : ℚ) / (max (jobSkillSet j).card 1) * 20
    else 0) = 20 * claimSkillRatio cv j := by
  split_ifs with h
  · unfold claimSkillRatio; ring
  · unfold claimSkillRatio
    rcases not_and_or.mp h with hc | hc
    · rw [not_not] at hc
      rw [hc, Finset.empty_inter]
      simp
    · rw [not_not] at hc
      rw [hc, Finset.inter_empty]
      simp

/-- Claim C1: for 0 ≤ s ≤ 1, calculate_match_score equals
    min(0.70*s*100 + 0.20*r*100 + 10.0, 100) with r the skill overlap ratio,
    and the result lies in [0, 100]. -/
theorem calculate_match_score_spec (cv : CVData) (j : Job) (s : ℚ)
    (h0 : 0 ≤ s) (h1 : s ≤ 1) :
    calculate_match_score cv j s
      = min ((70/100) * s * 100 + (20/100) * claimSkillRatio cv j * 100 + 10) 100
    ∧ 0 ≤ calculate_match_score cv j s ∧ calculate_match_score cv j s ≤ 100 := by
  have hr : (0:ℚ) ≤ claimSkillRatio cv j := by
    unfold claimSkillRatio; positivity
  have heq : calculate_match_score cv j s
      = min ((70/100) * s * 100 + (20/100) * claimSkillRatio cv j * 100 + 10) 100 := by
    simp only [calculate_match_score]
    rw [skillScore_eq_ratio]
    congr 1
    ring
  refine ⟨heq, ?_, ?_⟩
  · rw [heq]
    have : (0:ℚ) ≤ (70/100) * s * 100 + (20/100) * claimSkillRatio cv j * 100 + 10 := by
      nlinarith
    exact le_min this (by norm_num)
  · rw [heq]; exact min_le_right _ _

/-- Witness for C1 at a concrete CV, job and similarity 1/2. -/
theorem calculate_match_score_spec_witness :
    calculate_match_score
        { name := "", email := "", phone := "", skills := ["Python"],
          experience := [], education := [], languages := [], raw_text := "" }
        [("requirements", JVal.vlist [JAtom.astr "Python programming"])] (1/2)
      = min ((70/100) * (1/2) * 100
              + (20/100) * claimSkillRatio
                  { name := "", email := "", phone := "", skills := ["Python"],
                    experience := [], education := [], languages := [], raw_text := "" }
                  [("requirements", JVal.vlist [JAtom.astr "Python programming"])] * 100
              + 10) 100
    ∧ 0 ≤ calculate_match_score
        { name := "", email := "", phone := "", skills := ["Python"],
          experience := [], education := [], languages := [], raw_text := "" }
        [("requirements", JVal.vlist [JAtom.astr "Python programming"])] (1/2)
    ∧ calculate_match_score
        { name := "", email := "", phone := "", skills := ["Python"],
          experience := [], education := [], languages := [], raw_text := "" }
        [("requirements", JVal.vlist [JAtom.astr "Python programming"])] (1/2) ≤ 100 :=
  calculate_match_score_spec _ _ _ (by norm_num) (by norm_num)

/-- Helper: the candidate loop of get_job_field agrees with findSome? over the
    amended per-candidate normalisation. -/
theorem getJobFieldGo_eq (j : Job) :
    ∀ fs : List String, getJobFieldGo j fs = (fs.findSome? (amendedStep j)).getD "" := by
  intro fs
  induction fs with
  | nil => rfl
  | cons f rest ih =>
    rw [getJobFieldGo, List.findSome?_cons]
    cases hv : jobGetVal j f with
    | none => simp [amendedStep, hv, ih]
    | some v =>
      cases v with
      | vlist l =>
        by_cases hl : listFiltered l = []
        · simp [amendedStep, hv, hl]
          rfl
        · simp [amendedStep, hv, hl]
      | vatom a =>
        cases a with
        | anull =>
          have hnn : pyStrip (pyStr (JVal.vatom JAtom.anull)) = "None" := by decide
          simp [amendedStep, hv, hnn]
        | astr st =>
          by_cases hs : pyStrip st = ""
          · simp [amendedStep, hv, pyStr, atomStr, hs, ih]
          · simp [amendedStep, hv, pyStr, atomStr, hs]
        | abool b => simp [amendedStep, hv]
      | vnum q =>
        by_cases hs : pyStrip (pyStr (JVal.vnum q)) = ""
        · simp [amendedStep, hv, hs, ih]
        · simp [amendedStep, hv, hs]

/-- Claim C3 counterexample: on a job whose legacy location is the list [None]
    and whose locations_derived is ["Paris"], the code returns "" while the
    claim (first candidate non-empty after normalisation) demands "Paris". -/
theorem get_job_field_claim_counterexample :
    get_job_field
        [("location", JVal.vlist [JAtom.anull]),
         ("locations_derived", JVal.vlist [JAtom.astr "Paris"])] "location" = ""
    ∧ getJobFieldClaimed
        [("location", JVal.vlist [JAtom.anull]),
         ("locations_derived", JVal.vlist [JAtom.astr "Paris"])] "location" = "Paris"
    ∧ ("" : String) ≠ "Paris" := by
  refine ⟨by decide, by decide, by decide⟩

/-- Claim C3 (amended): get_job_field returns the first non-null candidate as
    normalised, where a list or boolean value always decides the result (a list
    of dropped entries yields "") and only stringified values fall through when
    empty after trimming; together with the three concrete examples of the claim. -/
theorem get_job_field_amended_spec :
    (∀ (j : Job) (field_name : String),
      get_job_field j field_name = getJobFieldAmended j field_name)
    ∧ get_job_field
        [("company", JVal.vatom (JAtom.astr "")),
         ("organization", JVal.vatom (JAtom.astr "Acme"))] "company" = "Acme"
    ∧ get_job_field [] "company" = ""
    ∧ get_job_field
        [("locations_derived",
          JVal.vlist [JAtom.astr "Paris", JAtom.anull, JAtom.astr ""])] "location"
        = "Paris" := by
  refine ⟨fun j fn => getJobFieldGo_eq j (fieldMapping fn), by decide, by decide, by decide⟩

/-- Claim C9: the tier label is excellent iff score ≥ 80, good iff 60 ≤ score < 80,
    moderate iff 40 ≤ score < 60, low iff score < 40; in particular 80.0 is
    excellent and 79.9 is good. -/
theorem matchLevel_spec :
    (∀ s : ℚ,
      (matchLevel s = "excellent" ↔ 80 ≤ s)
      ∧ (matchLevel s = "good" ↔ 60 ≤ s ∧ s < 80)
      ∧ (matchLevel s = "moderate" ↔ 40 ≤ s ∧ s < 60)
      ∧ (matchLevel s = "low" ↔ s < 40))
    ∧ matchLevel 80 = "excellent" ∧ matchLevel (799/10) = "good" := by
  refine ⟨fun s => ?_, by norm_num [matchLevel], by norm_num [matchLevel]⟩
  unfold matchLevel
  split_ifs with h1 h2 h3 <;>
    refine ⟨?_, ?_, ?_, ?_⟩ <;> simp_all [not_le] <;>
    first
      | linarith
      | (intros; linarith)
      | (constructor <;> intros <;> linarith)

/-- Helper: after overwriting key k in place, k is found with the new value. -/
theorem find_overwrite_self (k : String) (v : JVal) :
    ∀ j : Job, j.any (fun kv => kv.1 = k) = true →
      List.find? (fun kv => kv.1 = k)
        (j.map (fun kv => if kv.1 = k then (k, v) else kv)) = some (k, v)
  | [], h => by simp at h
  | kv :: rest, h => by
      by_cases hk : kv.1 = k
      · simp [hk]
      · have h' : rest.any (fun kv => kv.1 = k) = true := by
          simp only [List.any_cons, Bool.or_eq_true, decide_eq_true_eq] at h
          rcases h with h | h
          · exact absurd h hk
          · exact List.any_eq_true.mpr (by simpa using h)
        simp [hk, find_overwrite_self k v rest h']

/-- Helper: overwriting key k in place does not affect lookups of other keys. -/
theorem find_overwrite_ne (k k2 : String) (v : JVal) (hne : k2 ≠ k) :
    ∀ j : Job, List.find? (fun kv => kv.1 = k2)
        (j.map (fun kv => if kv.1 = k then (k, v) else kv))
      = List.find? (fun kv => kv.1 = k2) j
  | [] => rfl
  | kv :: rest => by
      by_cases hk : kv.1 = k
      · have h1 : ¬ ((k, v).1 = k2) := fun hh => hne hh.symm
        have h2 : ¬ (kv.1 = k2) := by rw [hk]; exact fun hh => hne hh.symm
        simp only [List.map_cons, if_pos hk]
        rw [List.find?_cons_of_neg _ (by simpa using h1),
          List.find?_cons_of_neg _ (by simpa using h2)]
        exact find_overwrite_ne k k2 v hne rest
      · simp only [List.map_cons, if_neg hk, List.find?_cons]
        rw [find_overwrite_ne k k2 v hne rest]

/-- Helper: a freshly written key reads back its value. -/
theorem jobGet_dictSet_self (j : Job) (k : String) (v : JVal) :
    jobGet (dictSet j k v) k = some v := by
  unfold dictSet jobGet
  by_cases h : j.any (fun kv => kv.1 = k) = true
  · rw [if_pos h, find_overwrite_self k v j h]
    rfl
  · rw [if_neg h, List.find?_append]
    have hnone : List.find? (fun kv => kv.1 = k) j = none :=
      List.find?_eq_none.mpr
        (fun x hx hpx => h (List.any_eq_true.mpr ⟨x, hx, hpx⟩))
    rw [hnone]
    simp

/-- Helper: writing key k does not affect lookups of a different key. -/
theorem jobGet_dictSet_ne (j : Job) (k k2 : String) (v : JVal) (hne : k2 ≠ k) :
    jobGet (dictSet j k v) k2 = jobGet j k2 := by
  unfold dictSet jobGet
  by_cases h : j.any (fun kv => kv.1 = k) = true
  · rw [if_pos h, find_overwrite_ne k k2 v hne j]
  · rw [if_neg h, List.find?_append]
    have hlast : List.find? (fun kv => kv.1 = k2) [(k, v)] = none := by
      have hne2 : ¬ (k = k2) := fun hh => hne hh.symm
      simp [hne2]
    rw [hlast]
    simp

/-- Helper: the comparator is transitive. -/
theorem scoreLe_trans (a b c : Job) : scoreLe a b → scoreLe b c → scoreLe a c := by
  simp only [scoreLe, decide_eq_true_eq]
  exact fun hab hbc => le_trans hbc hab

/-- Helper: the comparator is total. -/
theorem scoreLe_total (a b : Job) : scoreLe a b || scoreLe b a := by
  simp only [scoreLe, Bool.or_eq_true, decide_eq_true_eq]
  exact le_total _ _

/-- Claim C2: match_cv_with_jobs returns exactly min(top_n, number of jobs)
    entries, sorted descending by match_score, each entry being the scored copy
    of one input job, carrying (rounded to 2 decimals) the score computed for
    that job.  Stated for every similarity function simf, mirroring the
    injected nlp_service dependency. -/
theorem match_cv_with_jobs_spec (simf : String → String → ℚ) (cv : CVData)
    (job_offers : List Job) (top_n : Nat) :
    (match_cv_with_jobs simf cv job_offers top_n).length = min top_n job_offers.length
    ∧ List.Pairwise (fun a b => matchScoreOf b ≤ matchScoreOf a)
        (match_cv_with_jobs simf cv job_offers top_n)
    ∧ ∀ m ∈ match_cv_with_jobs simf cv job_offers top_n,
        ∃ job ∈ job_offers,
          m = annotateJob simf cv (cvSummaryOrRaw cv) job
          ∧ jobGet m "match_score"
              = some (JVal.vnum (pyRound2 (calculate_match_score cv job
                  (simf (cvSummaryOrRaw cv) (create_job_summary job))))) := by
  refine ⟨?_, ?_, ?_⟩
  · simp [match_cv_with_jobs]
  · have hs := List.sorted_mergeSort scoreLe_trans scoreLe_total
      (job_offers.map (annotateJob simf cv (cvSummaryOrRaw cv)))
    have hs' : List.Pairwise (fun a b => matchScoreOf b ≤ matchScoreOf a)
        ((job_offers.map (annotateJob simf cv (cvSummaryOrRaw cv))).mergeSort scoreLe) :=
      hs.imp (fun h => by simpa [scoreLe] using h)
    have htake := List.Pairwise.sublist (List.take_sublist top_n _) hs'
    simpa [match_cv_with_jobs] using htake
  · intro m hm
    simp only [match_cv_with_jobs] at hm
    have hm1 : m ∈ (job_offers.map
        (annotateJob simf cv (cvSummaryOrRaw cv))).mergeSort scoreLe :=
      List.Sublist.mem hm (List.take_sublist top_n _)
    rw [List.mem_mergeSort] at hm1
    rcases List.mem_map.mp hm1 with ⟨job, hjob, rfl⟩
    refine ⟨job, hjob, rfl, ?_⟩
    simp only [annotateJob]
    rw [jobGet_dictSet_ne _ _ _ _ (by decide), jobGet_dictSet_self]

/-- Helper: the scoring loop never changes the dicts below the initial store
    length, only grows the store, and returns references at or above the
    initial store length. -/
theorem matchLoopHeap_frame (simf : String → String → ℚ) (cv : CVData) (cs : String) :
    ∀ (rs : List Nat) (store : List Job) (k : Nat), k ≤ store.length →
      ((matchLoopHeap simf cv cs rs store).1).take k = store.take k
      ∧ store.length ≤ ((matchLoopHeap simf cv cs rs store).1).length
      ∧ ∀ r ∈ (matchLoopHeap simf cv cs rs store).2, store.length ≤ r
  | [], store, k, hk => ⟨rfl, le_refl _, by simp [matchLoopHeap]⟩
  | r :: rest, store, k, hk => by
      simp only [matchLoopHeap, heapSet]
      set job := store.getD r []
      set v1 : JVal := JVal.vnum (pyRound2 (calculate_match_score cv job
        (simf cs (create_job_summary job))))
      set v2 : JVal := JVal.vnum (pyRound2 (simf cs (create_job_summary job) * 100))
      set st1 := store ++ [job] with hst1
      set st2 := st1.set store.length (dictSet (st1.getD store.length []) "match_score" v1)
        with hst2
      set st3 := st2.set store.length (dictSet (st2.getD store.length []) "similarity_score" v2)
        with hst3
      have hlen1 : st1.length = store.length + 1 := by simp [hst1]
      have hlen2 : st2.length = store.length + 1 := by
        rw [hst2, List.length_set, hlen1]
      have hlen3 : st3.length = store.length + 1 := by
        rw [hst3, List.length_set, hlen2]
      have htake1 : st1.take k = store.take k := List.take_append_of_le_length hk
      have hsetk : ∀ (l : List Job) (d : Job), k ≤ store.length →
          (l.set store.length d).take k = l.take k := by
        intro l d hkk
        rw [List.set_take, List.set_eq_of_length_le]
        exact le_trans (by simpa using List.length_take_le k l) hkk
      have htake3 : st3.take k = store.take k := by
        rw [hst3, hsetk _ _ hk, hst2, hsetk _ _ hk, htake1]
      have hk3 : k ≤ st3.length := by omega
      obtain ⟨ih1, ih2, ih3⟩ := matchLoopHeap_frame simf cv cs rest st3 k hk3
      refine ⟨ih1.trans htake3, ?_, ?_⟩
      · omega
      · intro rr hrr
        rcases List.mem_cons.mp hrr with rfl | hrr
        · exact le_refl _
        · have := ih3 rr hrr
          omega

/-- Claim C10: match_cv_with_jobs (and hence rank_jobs, which is the same call
    with top_n = number of jobs) leaves every input job dict unchanged in the
    store; the score annotations are written only to freshly allocated copies,
    and every returned reference points at or above the input region. -/
theorem match_cv_with_jobs_heap_frame (simf : String → String → ℚ) (cv : CVData)
    (jobs : List Job) (top_n : Nat) :
    ((match_cv_with_jobs_heap simf cv jobs top_n).1).take jobs.length = jobs
    ∧ ∀ r ∈ (match_cv_with_jobs_heap simf cv jobs top_n).2, jobs.length ≤ r := by
  obtain ⟨h1, h2, h3⟩ := matchLoopHeap_frame simf cv (cvSummaryOrRaw cv)
    (List.range jobs.length) jobs jobs.length (le_refl _)
  constructor
  · simp only [match_cv_with_jobs_heap]
    rw [h1]
    exact List.take_length jobs
  · intro r hr
    simp only [match_cv_with_jobs_heap] at hr
    have hr1 := List.Sublist.mem hr (List.take_sublist top_n _)
    rw [List.mem_mergeSort] at hr1
    exact h3 r hr1

/-- Helper: the name scanning loop is the first hit of the acceptance test. -/
theorem nameLoop_eq_find : ∀ ls : List String,
    nameLoop ls = ((ls.find? nameCond).map pyStrip).getD ""
  | [] => rfl
  | l :: rest => by
      cases h : nameCond l with
      | true => simp [nameLoop, h]
      | false => simp [nameLoop, h, nameLoop_eq_find rest]

/-- Claim C7 counterexample: with a blank-line run, the matching line
    "John Smith" is the second non-empty line but the sixth raw line, so the
    code returns "" while the claim (first 5 non-empty lines) returns the name. -/
theorem extract_name_claim_counterexample :
    extract_name "a@a\n\n\n\n\nJohn Smith" = ""
    ∧ extractNameClaimed "a@a\n\n\n\n\nJohn Smith" = "John Smith"
    ∧ ("John Smith" : String) ≠ "" := by
  refine ⟨by decide, by decide, by decide⟩

/-- Claim C7 (amended): the name is the first among the first 5 RAW lines of
    the whitespace-trimmed text (blank lines count towards the 5) whose
    stripped form is non-empty, under 50 characters, contains no "@" and
    matches the uppercase-then-letters/spaces pattern; "" if none of those 5
    qualifies.  A positive instance is included. -/
theorem extract_name_amended_spec :
    (∀ text : String, extract_name text = extractNameAmended text)
    ∧ extract_name "John Smith\nx@y.zz\n123" = "John Smith" := by
  refine ⟨fun text => nameLoop_eq_find _, by decide⟩

/-- Claim C6 evaluation at the failing input: the experience section
    "Aa at Bb;Cc at Dd;Ee at Ff;Gg - Hh;Ii - Jj;Kk - Ll" matches the first
    job-line shape three times and the second three times, and the [:5] cap of
    the code is applied to each shape separately, so analyze_cv returns six
    experience entries where the claim (and the code comment Max 5
    experiences) allow at most five. -/
theorem extract_experience_cap_violation :
    extract_experience "Experience: Aa at Bb;Cc at Dd;Ee at Ff;Gg - Hh;Ii - Jj;Kk - Ll"
      = [{ title := "Aa", company := "Bb" }, { title := "Cc", company := "Dd" },
         { title := "Ee", company := "Ff" }, { title := "Gg", company := "Hh" },
         { title := "Ii", company := "Jj" }, { title := "Kk", company := "Ll" }]
    ∧ (extract_experience
        "Experience: Aa at Bb;Cc at Dd;Ee at Ff;Gg - Hh;Ii - Jj;Kk - Ll").length
      = 6 := by
  refine ⟨by decide, by decide⟩

/-- Claim C8: analyze_cv always returns a profile with all eight fields,
    raw_text is the input verbatim, and on empty or malformed input every
    heuristic yields its empty default (the embedding is a total function, so
    no exception is possible). -/
theorem analyze_cv_total_defaults :
    (∀ text : String, (analyze_cv text).raw_text = text)
    ∧ analyze_cv "" =
        { name := "", email := "", phone := "", skills := [],
          experience := [], education := [], languages := [], raw_text := "" }
    ∧ analyze_cv "@@ 12 \n\n ---" =
        { name := "", email := "", phone := "",
          skills := [], experience := [], education := [], languages := [],
          raw_text := "@@ 12 \n\n ---" } := by
  refine ⟨fun text => rfl, by decide, by decide⟩

end MAS
